import Mathlib

/-!
Verification development for the tenere terminal chat client
(src/prompt.rs, src/main.rs, src/ui.rs, src/llm.rs).

The modal input interpreter (`Prompt::key_binding`), the dispatch-loop
handler for completed answers (`main.rs`, `Event::GPTResponse` arm) and the
help-popup margin computation (`ui.rs`, `help_rect`) are translated directly
from the source.  The editable text buffer used by the interpreter is the
external `tui_textarea::TextArea` collaborator, whose code is not part of
this repository; its operations are modelled from the specification's
"Editable Text Buffer" component (spec section 4.1) as explicit functions on
a lines-and-cursor state.
-/

namespace Tenere

/-- Editor mode, translated from `Mode` in src/prompt.rs. -/
inductive Mode
  | Normal
  | Insert
  | Visual
deriving DecidableEq, Repr

/-- Key codes, translated from the subset of `crossterm::event::KeyCode`
matched by `Prompt::key_binding` (src/prompt.rs); `Null` is the sentinel
used to initialise `previous_key`. -/
inductive KeyCode
  | Char (c : Char)
  | Enter
  | Backspace
  | Esc
  | Left
  | Right
  | Up
  | Down
  | Null
deriving DecidableEq, Repr

/-- Key modifiers: the interpreter only ever tests equality with
`KeyModifiers::NONE`, so the model keeps just that distinction. -/
inductive KeyMods
  | NONE
  | OTHER
deriving DecidableEq, Repr

/-- A key event, translated from `crossterm::event::KeyEvent` restricted to
the fields `Prompt::key_binding` reads. -/
structure KeyEvent where
  code : KeyCode
  modifiers : KeyMods
deriving DecidableEq, Repr

/-- Outcome of `clipboard.get_text()` for the external clipboard
collaborator.  `key_binding` receives `Option<&mut Clipboard>`; the model
passes `none` for no clipboard and `some` of the read outcome otherwise. -/
inductive ClipGet
  | ok (text : List Char)
  | err
deriving DecidableEq, Repr

/-- Modelled from the spec: the Editable Text Buffer state of section 4.1
(standing in for the external `tui_textarea::TextArea`): an ordered sequence
of lines of characters, a `(line, column)` cursor, an optional selection
anchor, a yank register, and an undo stack of `(lines, cursor)` snapshots. -/
structure TextArea where
  lines : List (List Char)
  cursor : Nat × Nat
  selStart : Option (Nat × Nat)
  yankText : List Char
  undoStack : List (List (List Char) × (Nat × Nat))
deriving DecidableEq, Repr

/-- `TextArea::default()`: a single empty line, cursor at the origin, no
selection, empty register, empty undo history. -/
def TextArea.default : TextArea :=
  { lines := [[]], cursor := (0, 0), selStart := none, yankText := [], undoStack := [] }

/-- Modelled from the spec: word characters are the non-whitespace
characters ("word = maximal run of non-whitespace", spec section 4.1). -/
def isWordChar (ch : Char) : Bool :=
  (ch != ' ') && (ch != '\t')

/-- The line at row `r` (empty when out of range). -/
def TextArea.lineAt (ta : TextArea) (r : Nat) : List Char :=
  ta.lines.getD r []

/-- Modelled from the spec: the column where the motion "one word forward"
lands inside one line: skip the rest of the current word, then the
whitespace run; when no further word starts on the line, land at line end. -/
def nextWordStart (cs : List Char) (c : Nat) : Nat :=
  let rest := cs.drop c
  let a := (rest.takeWhile isWordChar).length
  let b := ((rest.drop a).takeWhile (fun ch => !isWordChar ch)).length
  if a + b = rest.length then cs.length else c + a + b

/-- Modelled from the spec: the column where the motion "one word backward"
lands inside one line: skip whitespace leftwards, then the word, landing on
the word's first character. -/
def prevWordStart (cs : List Char) (c : Nat) : Nat :=
  let before := (cs.take c).reverse
  let a := (before.takeWhile (fun ch => !isWordChar ch)).length
  let b := ((before.drop a).takeWhile isWordChar).length
  c - a - b

/-- Document order on cursor positions. -/
def posLe (p q : Nat × Nat) : Prop :=
  p.1 < q.1 ∨ (p.1 = q.1 ∧ p.2 ≤ q.2)

instance (p q : Nat × Nat) : Decidable (posLe p q) :=
  inferInstanceAs (Decidable (p.1 < q.1 ∨ (p.1 = q.1 ∧ p.2 ≤ q.2)))

/-- The lines remaining after removing the half-open range from position `p`
to position `q` (`p ≤ q` expected): the prefix of row `p.1` and the suffix
of row `q.1` merge into one line. -/
def spliceLines (lines : List (List Char)) (p q : Nat × Nat) : List (List Char) :=
  lines.take p.1
    ++ [(lines.getD p.1 []).take p.2 ++ (lines.getD q.1 []).drop q.2]
    ++ lines.drop (q.1 + 1)

/-- The text of the range from `p` to `q` (`p ≤ q` expected), newlines
between the constituent line pieces. -/
def rangeText (lines : List (List Char)) (p q : Nat × Nat) : List Char :=
  if p.1 = q.1 then ((lines.getD p.1 []).take q.2).drop p.2
  else
    ((lines.getD p.1 []).drop p.2)
      ++ '\n' :: List.intercalate ['\n']
        (((lines.drop (p.1 + 1)).take (q.1 - (p.1 + 1))) ++ [(lines.getD q.1 []).take q.2])

/-- Modelled from the spec: a destructive edit updates lines and cursor and
"pushes an undo checkpoint" (spec sections 4.1 and 8) exactly when the lines
actually change. -/
def TextArea.applyEdit (ta : TextArea) (newLines : List (List Char))
    (newCursor : Nat × Nat) : TextArea :=
  if newLines = ta.lines then { ta with cursor := newCursor }
  else
    { ta with
      lines := newLines
      cursor := newCursor
      undoStack := (ta.lines, ta.cursor) :: ta.undoStack }

/-- Delete the range from `p` to `q` (`p ≤ q` expected); the cursor moves to
the start of the removed range. -/
def TextArea.deleteRange (ta : TextArea) (p q : Nat × Nat) : TextArea :=
  ta.applyEdit (spliceLines ta.lines p q) p

/-- `CursorMove::Head`: column 0 of the current row. -/
def TextArea.move_head (ta : TextArea) : TextArea :=
  { ta with cursor := (ta.cursor.1, 0) }

/-- `CursorMove::End`: past the last character of the current row. -/
def TextArea.move_end (ta : TextArea) : TextArea :=
  { ta with cursor := (ta.cursor.1, (ta.lineAt ta.cursor.1).length) }

/-- `CursorMove::Up`: one row up, column clamped (spec section 4.1: "one
line up/down clamped to buffer extents"). -/
def TextArea.move_up (ta : TextArea) : TextArea :=
  let r := ta.cursor.1 - 1
  { ta with cursor := (r, min ta.cursor.2 (ta.lineAt r).length) }

/-- `CursorMove::Down`: one row down, clamped, column clamped. -/
def TextArea.move_down (ta : TextArea) : TextArea :=
  let r := min (ta.cursor.1 + 1) (ta.lines.length - 1)
  { ta with cursor := (r, min ta.cursor.2 (ta.lineAt r).length) }

/-- `CursorMove::Back`: one column left, wrapping to the end of the
previous line at column 0. -/
def TextArea.move_back (ta : TextArea) : TextArea :=
  let (r, c) := ta.cursor
  if 0 < c then { ta with cursor := (r, c - 1) }
  else if 0 < r then { ta with cursor := (r - 1, (ta.lineAt (r - 1)).length) }
  else ta

/-- `CursorMove::Forward`: one column right, wrapping to the start of the
next line at line end. -/
def TextArea.move_forward (ta : TextArea) : TextArea :=
  let (r, c) := ta.cursor
  if c < (ta.lineAt r).length then { ta with cursor := (r, c + 1) }
  else if r + 1 < ta.lines.length then { ta with cursor := (r + 1, 0) }
  else ta

/-- `CursorMove::WordForward` (spec section 4.1: "one word forward"). -/
def TextArea.move_word_forward (ta : TextArea) : TextArea :=
  { ta with cursor := (ta.cursor.1, nextWordStart (ta.lineAt ta.cursor.1) ta.cursor.2) }

/-- `CursorMove::WordBack` (spec section 4.1: "one word backward"). -/
def TextArea.move_word_back (ta : TextArea) : TextArea :=
  { ta with cursor := (ta.cursor.1, prevWordStart (ta.lineAt ta.cursor.1) ta.cursor.2) }

/-- `CursorMove::Bottom`: last row, column clamped. -/
def TextArea.move_bottom (ta : TextArea) : TextArea :=
  let r := ta.lines.length - 1
  { ta with cursor := (r, min ta.cursor.2 (ta.lineAt r).length) }

/-- `CursorMove::Jump(0, 0)`: document start (spec section 4.1: "absolute
jump to (line, col)"). -/
def TextArea.move_jump00 (ta : TextArea) : TextArea :=
  { ta with cursor := (0, 0) }

/-- Modelled from the spec: `delete_to_line_end` deletes the motion range
from the cursor to the line end; with the cursor already at line end the
newline is removed, merging the next line in (required for the interpreter's
composite "delete the current line" command of spec section 4.2). -/
def TextArea.delete_line_by_end (ta : TextArea) : TextArea :=
  let (r, c) := ta.cursor
  if c < (ta.lineAt r).length then ta.deleteRange (r, c) (r, (ta.lineAt r).length)
  else if r + 1 < ta.lines.length then ta.deleteRange (r, c) (r + 1, 0)
  else ta

/-- Modelled from the spec: `delete_to_line_start` deletes from the line
head to the cursor; at column 0 the newline before the cursor is removed,
merging into the previous line. -/
def TextArea.delete_line_by_head (ta : TextArea) : TextArea :=
  let (r, c) := ta.cursor
  if 0 < c then ta.deleteRange (r, 0) (r, c)
  else if 0 < r then ta.deleteRange (r - 1, (ta.lineAt (r - 1)).length) (r, 0)
  else ta

/-- Modelled from the spec: `delete_word_forward` deletes the motion range
from the cursor to the next word start (spec section 4.2: "deletes the
corresponding motion range (to next word ...)"). -/
def TextArea.delete_next_word (ta : TextArea) : TextArea :=
  let (r, c) := ta.cursor
  ta.deleteRange (r, c) (r, nextWordStart (ta.lineAt r) c)

/-- Modelled from the spec: `delete_word_backward` deletes the motion range
from the previous word start to the cursor. -/
def TextArea.delete_word (ta : TextArea) : TextArea :=
  let (r, c) := ta.cursor
  ta.deleteRange (r, prevWordStart (ta.lineAt r) c) (r, c)

/-- Modelled from the spec: `delete_char_at_cursor`; at line end the
following newline is removed. -/
def TextArea.delete_next_char (ta : TextArea) : TextArea :=
  let (r, c) := ta.cursor
  if c < (ta.lineAt r).length then ta.deleteRange (r, c) (r, c + 1)
  else if r + 1 < ta.lines.length then ta.deleteRange (r, c) (r + 1, 0)
  else ta

/-- Modelled from the spec: `delete_char_before_cursor` (Backspace); at
column 0 the preceding newline is removed. -/
def TextArea.delete_char (ta : TextArea) : TextArea :=
  let (r, c) := ta.cursor
  if 0 < c then ta.deleteRange (r, c - 1) (r, c)
  else if 0 < r then ta.deleteRange (r - 1, (ta.lineAt (r - 1)).length) (r, 0)
  else ta

/-- Split a character sequence at newline characters. -/
def splitNL (cs : List Char) : List (List Char) :=
  cs.foldr (fun ch acc => if ch = '\n' then [] :: acc else (ch :: acc.headD []) :: acc.tail)
    [[]]

/-- Modelled from the spec: insert a (possibly multi-line) text verbatim at
the cursor; the cursor ends after the inserted text. -/
def TextArea.insert_str (ta : TextArea) (s : List Char) : TextArea :=
  let (r, c) := ta.cursor
  let L := ta.lineAt r
  match splitNL s with
  | [] => ta
  | [p0] =>
      ta.applyEdit (ta.lines.take r ++ [L.take c ++ p0 ++ L.drop c] ++ ta.lines.drop (r + 1))
        (r, c + p0.length)
  | p0 :: rest =>
      let plast := rest.getLastD []
      let mids := rest.dropLast
      ta.applyEdit
        (ta.lines.take r ++ [L.take c ++ p0] ++ mids ++ [plast ++ L.drop c]
          ++ ta.lines.drop (r + 1))
        (r + rest.length, plast.length)

/-- Modelled from the spec: `insert_char(c)` at the cursor. -/
def TextArea.insert_char (ta : TextArea) (ch : Char) : TextArea :=
  let (r, c) := ta.cursor
  let L := ta.lineAt r
  ta.applyEdit (ta.lines.take r ++ [L.take c ++ ch :: L.drop c] ++ ta.lines.drop (r + 1))
    (r, c + 1)

/-- Modelled from the spec: `insert_newline()` splits the current line at
the cursor. -/
def TextArea.insert_newline (ta : TextArea) : TextArea :=
  let (r, c) := ta.cursor
  let L := ta.lineAt r
  ta.applyEdit (ta.lines.take r ++ [L.take c, L.drop c] ++ ta.lines.drop (r + 1)) (r + 1, 0)

/-- Modelled from the spec: `start_selection()` anchors at the current
cursor. -/
def TextArea.start_selection (ta : TextArea) : TextArea :=
  { ta with selStart := some ta.cursor }

/-- Modelled from the spec: `cancel_selection()` clears the anchor. -/
def TextArea.cancel_selection (ta : TextArea) : TextArea :=
  { ta with selStart := none }

/-- Modelled from the spec: `select_all()` anchors at the document start
and moves the cursor to the document end. -/
def TextArea.select_all (ta : TextArea) : TextArea :=
  let r := ta.lines.length - 1
  { ta with selStart := some (0, 0), cursor := (r, (ta.lineAt r).length) }

/-- Modelled from the spec: `copy()` stores the selected range (or, with no
selection, the current line) in the yank register and drops the anchor. -/
def TextArea.copy (ta : TextArea) : TextArea :=
  match ta.selStart with
  | some a =>
      let p := if posLe a ta.cursor then a else ta.cursor
      let q := if posLe a ta.cursor then ta.cursor else a
      { ta with yankText := rangeText ta.lines p q, selStart := none }
  | none => { ta with yankText := ta.lineAt ta.cursor.1 }

/-- Modelled from the spec: `cut()` removes the selected range into the yank
register (a destructive edit, so it pushes an undo checkpoint); with no
selection it is a no-op. -/
def TextArea.cut (ta : TextArea) : TextArea :=
  match ta.selStart with
  | some a =>
      let p := if posLe a ta.cursor then a else ta.cursor
      let q := if posLe a ta.cursor then ta.cursor else a
      let ta2 := ta.deleteRange p q
      { ta2 with yankText := rangeText ta.lines p q, selStart := none }
  | none => ta

/-- Modelled from the spec: `paste()` "inserts the yank register content at
the cursor; returns whether a paste occurred (false if register empty)"
(spec section 4.1). -/
def TextArea.paste (ta : TextArea) : Bool × TextArea :=
  if ta.yankText = [] then (false, ta) else (true, ta.insert_str ta.yankText)

/-- Modelled from the spec: `undo()` "restores the most recent checkpoint; a
no-op when the undo stack is empty". -/
def TextArea.undo (ta : TextArea) : TextArea :=
  match ta.undoStack with
  | [] => ta
  | (ls, cur) :: rest => { ta with lines := ls, cursor := cur, undoStack := rest }

/-- The prompt state, translated from `Prompt` in src/prompt.rs (the
`block` field only carries border styling and is omitted). -/
structure Prompt where
  mode : Mode
  previous_key : KeyCode
  formatted_prompt : List Char
  editor : TextArea
deriving DecidableEq, Repr

/-- `Prompt::default()` (src/prompt.rs): Normal mode, `previous_key`
initialised to the `Null` sentinel, empty formatted prompt, default editor. -/
def Prompt.default : Prompt :=
  { mode := Mode.Normal
    previous_key := KeyCode.Null
    formatted_prompt := []
    editor := TextArea.default }

/-- `Prompt::clear()` (src/prompt.rs): clear the formatted prompt, then
`select_all` and `cut` on the editor. -/
def Prompt.clear (p : Prompt) : Prompt :=
  { p with formatted_prompt := [], editor := p.editor.select_all.cut }

/-- `Prompt::key_binding` (src/prompt.rs), translated arm by arm.  The
`update(&FocusedBlock::Prompt)` calls only restyle the border block and are
omitted; the `y` arm's `clipboard.set_text` writes to the external clipboard
and has no effect on this state.  The final statement of the Rust function,
`self.previous_key = key_event.code`, is the trailing update. -/
def Prompt.key_binding (p : Prompt) (ev : KeyEvent) (clipboard : Option ClipGet) : Prompt :=
  let p1 : Prompt :=
    match p.mode with
    | Mode.Insert =>
      match ev.code with
      | KeyCode.Enter => { p with editor := p.editor.insert_newline }
      | KeyCode.Char c => { p with editor := p.editor.insert_char c }
      | KeyCode.Backspace => { p with editor := p.editor.delete_char }
      | KeyCode.Esc => { p with mode := Mode.Normal }
      | _ => p
    | _ =>
      match ev.code with
      | KeyCode.Char 'i' => { p with mode := Mode.Insert }
      | KeyCode.Esc => { p with mode := Mode.Normal, editor := p.editor.cancel_selection }
      | KeyCode.Char 'v' => { p with mode := Mode.Visual, editor := p.editor.start_selection }
      | KeyCode.Char 'h' =>
          if ev.modifiers = KeyMods.NONE then { p with editor := p.editor.move_back } else p
      | KeyCode.Left =>
          if ev.modifiers = KeyMods.NONE then { p with editor := p.editor.move_back } else p
      | KeyCode.Char 'j' =>
          if ev.modifiers = KeyMods.NONE then { p with editor := p.editor.move_down } else p
      | KeyCode.Down =>
          if ev.modifiers = KeyMods.NONE then { p with editor := p.editor.move_down } else p
      | KeyCode.Char 'k' =>
          if ev.modifiers = KeyMods.NONE then { p with editor := p.editor.move_up } else p
      | KeyCode.Up =>
          if ev.modifiers = KeyMods.NONE then { p with editor := p.editor.move_up } else p
      | KeyCode.Char 'l' =>
          if ev.modifiers = KeyMods.NONE then { p with editor := p.editor.move_forward } else p
      | KeyCode.Right =>
          if ev.modifiers = KeyMods.NONE then { p with editor := p.editor.move_forward } else p
      | KeyCode.Char 'w' =>
          { p with
            editor :=
              (if p.previous_key = KeyCode.Char 'd' then p.editor.delete_next_word
               else p.editor).move_word_forward }
      | KeyCode.Char 'b' =>
          { p with
            editor :=
              (if p.previous_key = KeyCode.Char 'd' then p.editor.delete_word
               else p.editor).move_word_back }
      | KeyCode.Char '$' =>
          { p with
            editor :=
              (if p.previous_key = KeyCode.Char 'd' then p.editor.delete_line_by_end
               else p.editor).move_end }
      | KeyCode.Char '0' =>
          { p with
            editor :=
              (if p.previous_key = KeyCode.Char 'd' then p.editor.delete_line_by_head
               else p.editor).move_head }
      | KeyCode.Char '^' => { p with editor := p.editor.move_head }
      | KeyCode.Char 'D' =>
          { p with editor := p.editor.move_head.delete_line_by_end.delete_line_by_head }
      | KeyCode.Char 'd' =>
          if p.previous_key = KeyCode.Char 'd' then
            { p with editor := p.editor.move_head.delete_line_by_end.delete_line_by_head }
          else p
      | KeyCode.Char 'C' =>
          { p with editor := p.editor.delete_line_by_end, mode := Mode.Insert }
      | KeyCode.Char 'u' => { p with editor := p.editor.undo }
      | KeyCode.Char 'x' => { p with editor := p.editor.delete_next_char }
      | KeyCode.Char 'a' => { p with editor := p.editor.move_forward, mode := Mode.Insert }
      | KeyCode.Char 'A' => { p with editor := p.editor.move_end, mode := Mode.Insert }
      | KeyCode.Char 'o' =>
          { p with editor := p.editor.move_end.insert_newline, mode := Mode.Insert }
      | KeyCode.Char 'O' =>
          { p with editor := p.editor.move_head.insert_newline.move_up, mode := Mode.Insert }
      | KeyCode.Char 'I' => { p with editor := p.editor.move_head, mode := Mode.Insert }
      | KeyCode.Char 'G' => { p with editor := p.editor.move_bottom }
      | KeyCode.Char 'g' =>
          if p.previous_key = KeyCode.Char 'g' then { p with editor := p.editor.move_jump00 }
          else p
      | KeyCode.Char 'y' => { p with editor := p.editor.copy }
      | KeyCode.Char 'p' =>
          if (p.editor.paste).1 then { p with editor := (p.editor.paste).2 }
          else
            match clipboard with
            | some (ClipGet.ok t) => { p with editor := p.editor.insert_str t }
            | _ => p
      | _ => p
  { p1 with previous_key := ev.code }

/-- One turn handed to the backend, translated from the
`HashMap<String, String>` with keys "role" and "content" built in
src/main.rs. -/
structure ChatMessage where
  role : String
  content : String
deriving DecidableEq, Repr

/-- The `Event::GPTResponse(response)` arm of the dispatch loop in
src/main.rs: pop the last chat cell, push the rendered response and a blank
separator, and append the turn recorded for the backend conversation. -/
def handleGPTResponse (chat : List String) (gpt_messages : List ChatMessage)
    (response : String) : List String × List ChatMessage :=
  (chat.dropLast ++ ["🤖: " ++ response ++ "\n", "\n"],
   gpt_messages ++ [{ role := "user", content := response }])

/-- Wrapping 16-bit subtraction, as performed by `r.width - 85` on `u16` in
release builds (src/ui.rs, `help_rect`). -/
def u16WrapSub (a b : Nat) : Nat :=
  (((a : Int) - (b : Int)) % 65536).toNat

/-- Rust's overflow condition for unsigned subtraction `a - b` (a panic in
debug builds). -/
def u16SubUnderflows (a b : Nat) : Prop :=
  a < b

instance (a b : Nat) : Decidable (u16SubUnderflows a b) :=
  inferInstanceAs (Decidable (a < b))

/-- The horizontal margin `Constraint::Length((r.width - 85) / 2)` computed
by `help_rect` (src/ui.rs); the surrounding `Layout` split is the external
ratatui collaborator. -/
def helpRectMargin (w : Nat) : Nat :=
  u16WrapSub w 85 / 2

/-- A plain key press with no modifiers. -/
def mkKey (c : Char) : KeyEvent :=
  { code := KeyCode.Char c, modifiers := KeyMods.NONE }

/-- Fixture: the two-line buffer of the specification's `dd` test. -/
def promptTwoLines : Prompt :=
  { Prompt.default with
    editor := { TextArea.default with lines := [['a','b','c'], ['d','e','f']] } }

/-- Fixture: single line "abc" with the cursor after the first character. -/
def promptAbc1 : Prompt :=
  { Prompt.default with
    editor := { TextArea.default with lines := [['a','b','c']], cursor := (0, 1) } }

/-- Fixture: single line "foo bar baz", cursor at the origin, with `d` as
the previously dispatched key. -/
def promptDW : Prompt :=
  { Prompt.default with
    previous_key := KeyCode.Char 'd'
    editor :=
      { TextArea.default with lines := [['f','o','o',' ','b','a','r',' ','b','a','z']] } }

/-- Fixture: single line "hi" with the cursor at line end. -/
def promptHi : Prompt :=
  { Prompt.default with
    editor := { TextArea.default with lines := [['h','i']], cursor := (0, 2) } }

/-- Fixture: single line "ab" with the cursor away from the origin. -/
def promptG : Prompt :=
  { Prompt.default with
    editor := { TextArea.default with lines := [['a','b']], cursor := (0, 1) } }

/-! ## Helper lemmas -/

theorem applyEdit_lines (ta : TextArea) (nl : List (List Char)) (nc : Nat × Nat) :
    (ta.applyEdit nl nc).lines = nl := by
  unfold TextArea.applyEdit
  split <;> simp_all

theorem applyEdit_cursor (ta : TextArea) (nl : List (List Char)) (nc : Nat × Nat) :
    (ta.applyEdit nl nc).cursor = nc := by
  unfold TextArea.applyEdit
  split <;> rfl

theorem delete_line_by_head_origin (ta : TextArea) (h : ta.cursor = (0, 0)) :
    ta.delete_line_by_head = ta := by
  unfold TextArea.delete_line_by_head
  rw [h]
  simp

theorem D_full_line (ta : TextArea) (h0 : ta.cursor.1 = 0) (hL : ta.lineAt 0 ≠ []) :
    ta.move_head.delete_line_by_end.delete_line_by_head.lines = [] :: ta.lines.tail := by
  obtain ⟨ls, ⟨r, c⟩, sel, yk, us⟩ := ta
  replace h0 : r = 0 := h0
  subst h0
  replace hL : ls.getD 0 [] ≠ [] := hL
  have hpos : 0 < (ls.getD 0 []).length := List.length_pos.mpr hL
  have hend :
      (⟨ls, (0, 0), sel, yk, us⟩ : TextArea).delete_line_by_end
        = TextArea.applyEdit ⟨ls, (0, 0), sel, yk, us⟩ ([] :: ls.tail) (0, 0) := by
    unfold TextArea.delete_line_by_end
    dsimp only [TextArea.lineAt]
    rw [if_pos hpos]
    unfold TextArea.deleteRange
    congr 1
    simp [spliceLines, List.drop_length, List.drop_one]
  show (TextArea.delete_line_by_head
      ((⟨ls, (0, 0), sel, yk, us⟩ : TextArea).delete_line_by_end)).lines = [] :: ls.tail
  rw [hend, delete_line_by_head_origin _ (applyEdit_cursor _ _ _), applyEdit_lines]

theorem selectAll_cut_lines (ta : TextArea) : ta.select_all.cut.lines = [[]] := by
  obtain ⟨ls, cur, sel, yk, us⟩ := ta
  have hled : posLe (0, 0) (ls.length - 1, (ls.getD (ls.length - 1) []).length) := by
    dsimp only [posLe]
    omega
  have hdrop : ls.drop (ls.length - 1 + 1) = [] :=
    List.drop_eq_nil_of_le (by omega)
  unfold TextArea.select_all TextArea.cut TextArea.deleteRange
  dsimp only [TextArea.lineAt]
  rw [if_pos hled, if_pos hled]
  rw [applyEdit_lines]
  simp [spliceLines, List.drop_length, hdrop]

theorem selectAll_cut_undo (ta : TextArea) (h : ta.lines ≠ [[]]) :
    ta.select_all.cut.undo.lines = ta.lines := by
  obtain ⟨ls, cur, sel, yk, us⟩ := ta
  replace h : ls ≠ [[]] := h
  have hled : posLe (0, 0) (ls.length - 1, (ls.getD (ls.length - 1) []).length) := by
    dsimp only [posLe]
    omega
  have hdrop : ls.drop (ls.length - 1 + 1) = [] :=
    List.drop_eq_nil_of_le (by omega)
  have hsplice :
      spliceLines ls (0, 0) (ls.length - 1, (ls.getD (ls.length - 1) []).length) = [[]] := by
    simp [spliceLines, List.drop_length, hdrop]
  unfold TextArea.select_all TextArea.cut TextArea.deleteRange
  dsimp only [TextArea.lineAt]
  rw [if_pos hled, if_pos hled, hsplice]
  unfold TextArea.applyEdit
  rw [if_neg (show ¬([[]] = ls) from fun he => h he.symm)]
  rfl

/-! ## Claim C1 -/

/-- C1: when the dispatch loop receives a completed answer
(`Event::GPTResponse`), the turn it appends to the backend conversation
carries role "user", not "assistant": the claim's asserted assistant role is
violated by the code. -/
theorem c1_gpt_response_role :
    (∀ (chat : List String) (msgs : List ChatMessage) (resp : String),
        (handleGPTResponse chat msgs resp).2.getLast? = some { role := "user", content := resp })
  ∧ (handleGPTResponse [] [] "Hello").2 = [{ role := "user", content := "Hello" }]
  ∧ ({ role := "user", content := "Hello" } : ChatMessage).role ≠ "assistant" := by
  refine ⟨fun chat msgs resp => ?_, by decide, by decide⟩
  simp [handleGPTResponse]

/-! ## Claim C10 -/

/-- C10: `help_rect` is not total: at frame width 84 the `u16` computation
`(r.width - 85) / 2` underflows (a panic in debug builds); the release-mode
wrapping value is 32767 columns of margin, while at width 85 the margin is 0. -/
theorem c10_help_margin_underflow :
    u16SubUnderflows 84 85 ∧ helpRectMargin 84 = 32767 ∧ helpRectMargin 85 = 0 := by
  refine ⟨by decide, by decide, by decide⟩

/-! ## Claim C2 -/

/-- C2 counterexample: on the single line "abc" with the cursor at column 1,
`D` leaves the empty line (the text "a" before the cursor is deleted too),
so `D` does not delete only from the cursor to the line end. -/
theorem c2_counterexample :
    (promptAbc1.key_binding (mkKey 'D') none).editor.lines = [[]]
  ∧ (promptAbc1.key_binding (mkKey 'D') none).editor.lines ≠ [['a']]
  ∧ promptAbc1.editor.lines = [['a','b','c']] ∧ promptAbc1.editor.cursor = (0, 1) := by
  decide

/-- C2 amended: in Normal or Visual mode `D` moves the cursor to the line
head and then deletes to the line end and to the line head, erasing the
whole current line's content (the text before the cursor included); in
particular on the first row with a non-empty line the result is an emptied
first line followed by the untouched remaining lines. -/
theorem c2_amended (p : Prompt) (ev : KeyEvent) (clip : Option ClipGet)
    (hm : p.mode ≠ Mode.Insert) (hc : ev.code = KeyCode.Char 'D') :
    (p.key_binding ev clip).editor
        = p.editor.move_head.delete_line_by_end.delete_line_by_head
  ∧ (p.editor.cursor.1 = 0 → p.editor.lineAt 0 ≠ [] →
      (p.key_binding ev clip).editor.lines = [] :: p.editor.lines.tail) := by
  obtain ⟨m, pk, fp, ed⟩ := p
  obtain ⟨code, mods⟩ := ev
  replace hm : m ≠ Mode.Insert := hm
  replace hc : code = KeyCode.Char 'D' := hc
  subst hc
  have he :
      (Prompt.key_binding ⟨m, pk, fp, ed⟩ ⟨KeyCode.Char 'D', mods⟩ clip).editor
        = ed.move_head.delete_line_by_end.delete_line_by_head := by
    cases m with
    | Insert => exact absurd rfl hm
    | Normal => rfl
    | Visual => rfl
  exact ⟨he, fun h0 hL => by rw [he]; exact D_full_line ed h0 hL⟩

/-- C2 witness: the amended theorem applied to the "abc" fixture. -/
theorem c2_witness :
    promptAbc1.mode ≠ Mode.Insert
  ∧ ((promptAbc1.key_binding (mkKey 'D') none).editor
        = promptAbc1.editor.move_head.delete_line_by_end.delete_line_by_head
    ∧ (promptAbc1.editor.cursor.1 = 0 → promptAbc1.editor.lineAt 0 ≠ [] →
        (promptAbc1.key_binding (mkKey 'D') none).editor.lines
          = [] :: promptAbc1.editor.lines.tail)) :=
  ⟨by decide, c2_amended promptAbc1 (mkKey 'D') none (by decide) rfl⟩

/-! ## Claim C3 -/

/-- C3 counterexample: on "foo bar baz" with the cursor at the origin and
`d` pending, `w` deletes the motion range and then ALSO moves the cursor a
word forward: the result differs from deleting the range alone (cursor
(0,4) instead of (0,0)). -/
theorem c3_counterexample :
    (promptDW.key_binding (mkKey 'w') none).editor.cursor = (0, 4)
  ∧ promptDW.editor.delete_next_word.cursor = (0, 0)
  ∧ (promptDW.key_binding (mkKey 'w') none).editor ≠ promptDW.editor.delete_next_word := by
  decide

/-- C3 amended: with `d` as the previous key, `w`/`b`/`$`/`0` delete the
corresponding motion range and then additionally perform the motion's
cursor movement in the resulting buffer, rather than only deleting the
range. -/
theorem c3_amended (p : Prompt) (ev : KeyEvent) (clip : Option ClipGet)
    (hm : p.mode ≠ Mode.Insert) (hd : p.previous_key = KeyCode.Char 'd') :
    (ev.code = KeyCode.Char 'w' →
        (p.key_binding ev clip).editor = p.editor.delete_next_word.move_word_forward)
  ∧ (ev.code = KeyCode.Char 'b' →
        (p.key_binding ev clip).editor = p.editor.delete_word.move_word_back)
  ∧ (ev.code = KeyCode.Char '$' →
        (p.key_binding ev clip).editor = p.editor.delete_line_by_end.move_end)
  ∧ (ev.code = KeyCode.Char '0' →
        (p.key_binding ev clip).editor = p.editor.delete_line_by_head.move_head) := by
  obtain ⟨m, pk, fp, ed⟩ := p
  obtain ⟨code, mods⟩ := ev
  replace hm : m ≠ Mode.Insert := hm
  replace hd : pk = KeyCode.Char 'd' := hd
  subst hd
  cases m with
  | Insert => exact absurd rfl hm
  | Normal =>
      refine ⟨fun hc => ?_, fun hc => ?_, fun hc => ?_, fun hc => ?_⟩
      · replace hc : code = KeyCode.Char 'w' := hc
        subst hc; rfl
      · replace hc : code = KeyCode.Char 'b' := hc
        subst hc; rfl
      · replace hc : code = KeyCode.Char '$' := hc
        subst hc; rfl
      · replace hc : code = KeyCode.Char '0' := hc
        subst hc; rfl
  | Visual =>
      refine ⟨fun hc => ?_, fun hc => ?_, fun hc => ?_, fun hc => ?_⟩
      · replace hc : code = KeyCode.Char 'w' := hc
        subst hc; rfl
      · replace hc : code = KeyCode.Char 'b' := hc
        subst hc; rfl
      · replace hc : code = KeyCode.Char '$' := hc
        subst hc; rfl
      · replace hc : code = KeyCode.Char '0' := hc
        subst hc; rfl

/-- C3 witness: the amended theorem's `w` case on the "foo bar baz"
fixture. -/
theorem c3_witness :
    promptDW.mode ≠ Mode.Insert ∧ promptDW.previous_key = KeyCode.Char 'd'
  ∧ ((promptDW.key_binding (mkKey 'w') none).editor
      = promptDW.editor.delete_next_word.move_word_forward) :=
  ⟨by decide, rfl, (c3_amended promptDW (mkKey 'w') none (by decide) rfl).1 rfl⟩

/-! ## Claim C4 -/

/-- C4: in Normal or Visual mode a `g` keypress jumps to the document start
exactly when the previously dispatched key was `g` (and is otherwise a
no-op on the editor); consequently, starting from any state whose pending
key is not `g`, the sequence `g`, `x`, `g` performs only the `x` deletion
and never jumps to the document start. -/
theorem c4_gg_lookback :
    (∀ (p : Prompt) (ev : KeyEvent) (clip : Option ClipGet),
        p.mode ≠ Mode.Insert → ev.code = KeyCode.Char 'g' →
        (p.key_binding ev clip).editor
          = if p.previous_key = KeyCode.Char 'g' then p.editor.move_jump00 else p.editor)
  ∧ (∀ (p : Prompt) (m1 m2 m3 : KeyMods) (c1 c2 c3 : Option ClipGet),
        p.mode ≠ Mode.Insert → p.previous_key ≠ KeyCode.Char 'g' →
        (((p.key_binding { code := KeyCode.Char 'g', modifiers := m1 } c1).key_binding
              { code := KeyCode.Char 'x', modifiers := m2 } c2).key_binding
            { code := KeyCode.Char 'g', modifiers := m3 } c3).editor
          = p.editor.delete_next_char) := by
  constructor
  · intro p ev clip hm hc
    obtain ⟨m, pk, fp, ed⟩ := p
    obtain ⟨code, mods⟩ := ev
    replace hm : m ≠ Mode.Insert := hm
    replace hc : code = KeyCode.Char 'g' := hc
    subst hc
    cases m with
    | Insert => exact absurd rfl hm
    | Normal =>
        by_cases hg : pk = KeyCode.Char 'g'
        · subst hg; rfl
        · unfold Prompt.key_binding
          dsimp only
          rw [if_neg hg, if_neg hg]
          rfl
    | Visual =>
        by_cases hg : pk = KeyCode.Char 'g'
        · subst hg; rfl
        · unfold Prompt.key_binding
          dsimp only
          rw [if_neg hg, if_neg hg]
          rfl
  · intro p m1 m2 m3 c1 c2 c3 hm hg
    obtain ⟨m, pk, fp, ed⟩ := p
    replace hm : m ≠ Mode.Insert := hm
    replace hg : pk ≠ KeyCode.Char 'g' := hg
    cases m with
    | Insert => exact absurd rfl hm
    | Normal =>
        have h1 :
            Prompt.key_binding ⟨Mode.Normal, pk, fp, ed⟩ ⟨KeyCode.Char 'g', m1⟩ c1
              = ⟨Mode.Normal, KeyCode.Char 'g', fp, ed⟩ := by
          unfold Prompt.key_binding
          dsimp only
          rw [if_neg hg]
          rfl
        rw [h1]
        rfl
    | Visual =>
        have h1 :
            Prompt.key_binding ⟨Mode.Visual, pk, fp, ed⟩ ⟨KeyCode.Char 'g', m1⟩ c1
              = ⟨Mode.Visual, KeyCode.Char 'g', fp, ed⟩ := by
          unfold Prompt.key_binding
          dsimp only
          rw [if_neg hg]
          rfl
        rw [h1]
        rfl

/-- C4 witness: the `g`,`x`,`g` sequence on the "ab" fixture performs only
the `x` deletion. -/
theorem c4_witness :
    promptG.mode ≠ Mode.Insert ∧ promptG.previous_key ≠ KeyCode.Char 'g'
  ∧ (((promptG.key_binding { code := KeyCode.Char 'g', modifiers := KeyMods.NONE } none).key_binding
          { code := KeyCode.Char 'x', modifiers := KeyMods.NONE } none).key_binding
        { code := KeyCode.Char 'g', modifiers := KeyMods.NONE } none).editor
      = promptG.editor.delete_next_char :=
  ⟨by decide, by decide,
    c4_gg_lookback.2 promptG KeyMods.NONE KeyMods.NONE KeyMods.NONE none none none
      (by decide) (by decide)⟩

/-! ## Claim C5 -/

/-- C5 counterexample: after dispatching `x` from the default state,
`previous_key` equals the `x` key just processed and not the `Null`
sentinel, so PendingKey is not reset to the sentinel after a dispatch. -/
theorem c5_counterexample :
    (Prompt.default.key_binding (mkKey 'x') none).previous_key = KeyCode.Char 'x'
  ∧ (Prompt.default.key_binding (mkKey 'x') none).previous_key ≠ KeyCode.Null := by
  decide

/-- C5 amended: after every dispatch `previous_key` equals the key just
processed (the `Null` sentinel is only its initial value), so two-key
commands consult exactly the immediately preceding key. -/
theorem c5_amended :
    (∀ (p : Prompt) (ev : KeyEvent) (clip : Option ClipGet),
        (p.key_binding ev clip).previous_key = ev.code)
  ∧ Prompt.default.previous_key = KeyCode.Null :=
  ⟨fun _ _ _ => rfl, rfl⟩

/-! ## Claim C6 -/

/-- C6: `dd` on the buffer ["abc", "def"] with the cursor on line 0 empties
the first line but does not remove it: the result is ["", "def"] with the
cursor at (0,0), not the ["def"] stated by the claim. -/
theorem c6_dd_first_line :
    ((promptTwoLines.key_binding (mkKey 'd') none).key_binding (mkKey 'd') none).editor.lines
        = [[], ['d','e','f']]
  ∧ ((promptTwoLines.key_binding (mkKey 'd') none).key_binding (mkKey 'd') none).editor.cursor
        = (0, 0)
  ∧ ((promptTwoLines.key_binding (mkKey 'd') none).key_binding (mkKey 'd') none).editor.lines
        ≠ [['d','e','f']] := by
  decide

/-! ## Claim C7 -/

/-- C7: in Normal or Visual mode `p` inserts the yank register at the
cursor when the register is non-empty; with an empty register it inserts
the external clipboard text verbatim when the read succeeds, and leaves the
editor completely unchanged when the clipboard is absent or the read
fails. -/
theorem c7_paste_fallback (p : Prompt) (ev : KeyEvent) (clip : Option ClipGet)
    (hm : p.mode ≠ Mode.Insert) (hc : ev.code = KeyCode.Char 'p') :
    (p.key_binding ev clip).editor
      = if p.editor.yankText ≠ [] then p.editor.insert_str p.editor.yankText
        else
          match clip with
          | some (ClipGet.ok t) => p.editor.insert_str t
          | _ => p.editor := by
  obtain ⟨m, pk, fp, ed⟩ := p
  obtain ⟨code, mods⟩ := ev
  replace hm : m ≠ Mode.Insert := hm
  replace hc : code = KeyCode.Char 'p' := hc
  subst hc
  have hite : ¬((false : Bool) = true) := by decide
  cases m with
  | Insert => exact absurd rfl hm
  | Normal =>
      by_cases hy : ed.yankText = []
      · have hp : ed.paste = (false, ed) := by
          unfold TextArea.paste
          rw [if_pos hy]
        unfold Prompt.key_binding
        dsimp only
        rw [hp]
        dsimp only
        rw [if_neg hite, if_neg (show ¬(ed.yankText ≠ []) from fun hne => hne hy)]
        cases clip with
        | none => rfl
        | some cg => cases cg <;> rfl
      · have hp : ed.paste = (true, ed.insert_str ed.yankText) := by
          unfold TextArea.paste
          rw [if_neg hy]
        unfold Prompt.key_binding
        dsimp only
        rw [hp]
        dsimp only
        rw [if_pos (show (true : Bool) = true from rfl), if_pos (show ed.yankText ≠ [] from hy)]
        rfl
  | Visual =>
      by_cases hy : ed.yankText = []
      · have hp : ed.paste = (false, ed) := by
          unfold TextArea.paste
          rw [if_pos hy]
        unfold Prompt.key_binding
        dsimp only
        rw [hp]
        dsimp only
        rw [if_neg hite, if_neg (show ¬(ed.yankText ≠ []) from fun hne => hne hy)]
        cases clip with
        | none => rfl
        | some cg => cases cg <;> rfl
      · have hp : ed.paste = (true, ed.insert_str ed.yankText) := by
          unfold TextArea.paste
          rw [if_neg hy]
        unfold Prompt.key_binding
        dsimp only
        rw [hp]
        dsimp only
        rw [if_pos (show (true : Bool) = true from rfl), if_pos (show ed.yankText ≠ [] from hy)]
        rfl

/-- C7 witness: empty register and a failing clipboard read leave the
editor unchanged. -/
theorem c7_witness :
    Prompt.default.mode ≠ Mode.Insert
  ∧ (Prompt.default.key_binding (mkKey 'p') (some ClipGet.err)).editor
      = (if Prompt.default.editor.yankText ≠ [] then
            Prompt.default.editor.insert_str Prompt.default.editor.yankText
         else
           match some ClipGet.err with
           | some (ClipGet.ok t) => Prompt.default.editor.insert_str t
           | _ => Prompt.default.editor) :=
  ⟨by decide, c7_paste_fallback Prompt.default (mkKey 'p') (some ClipGet.err) (by decide) rfl⟩

/-! ## Claim C8 -/

/-- C8 counterexample: from the default state, `v` then `i` yields Insert
mode with the selection anchor still set: entering Insert from Visual
leaves the selection active, so Insert mode can hold a selection. -/
theorem c8_counterexample :
    ((Prompt.default.key_binding (mkKey 'v') none).key_binding (mkKey 'i') none).mode
        = Mode.Insert
  ∧ ((Prompt.default.key_binding (mkKey 'v') none).key_binding (mkKey 'i') none).editor.selStart
        = some (0, 0) := by
  decide

/-- C8 amended: entering Insert via `i` from Normal or Visual mode leaves
the selection anchor untouched (no `cancel_selection` is performed), so
Insert can hold a selection; the anchor is cleared by `Esc` in
Normal/Visual mode. -/
theorem c8_amended (p : Prompt) (ev : KeyEvent) (clip : Option ClipGet)
    (hm : p.mode ≠ Mode.Insert) :
    (ev.code = KeyCode.Char 'i' →
        (p.key_binding ev clip).mode = Mode.Insert
      ∧ (p.key_binding ev clip).editor.selStart = p.editor.selStart)
  ∧ (ev.code = KeyCode.Esc →
        (p.key_binding ev clip).mode = Mode.Normal
      ∧ (p.key_binding ev clip).editor.selStart = none) := by
  obtain ⟨m, pk, fp, ed⟩ := p
  obtain ⟨code, mods⟩ := ev
  replace hm : m ≠ Mode.Insert := hm
  cases m with
  | Insert => exact absurd rfl hm
  | Normal =>
      refine ⟨fun hc => ?_, fun hc => ?_⟩ <;>
        (replace hc : code = _ := hc; subst hc; exact ⟨rfl, rfl⟩)
  | Visual =>
      refine ⟨fun hc => ?_, fun hc => ?_⟩ <;>
        (replace hc : code = _ := hc; subst hc; exact ⟨rfl, rfl⟩)

/-- C8 witness: pressing `i` in Visual mode with an active anchor keeps the
anchor. -/
theorem c8_witness :
    ((Prompt.default.key_binding (mkKey 'v') none).mode ≠ Mode.Insert)
  ∧ (((Prompt.default.key_binding (mkKey 'v') none).key_binding (mkKey 'i') none).mode
        = Mode.Insert
    ∧ ((Prompt.default.key_binding (mkKey 'v') none).key_binding (mkKey 'i') none).editor.selStart
        = (Prompt.default.key_binding (mkKey 'v') none).editor.selStart) :=
  ⟨by decide,
    (c8_amended (Prompt.default.key_binding (mkKey 'v') none) (mkKey 'i') none (by decide)).1 rfl⟩

/-! ## Claim C9 -/

/-- C9 counterexample: on the buffer ["hi"], `clear()` followed by the undo
key restores "hi": the undo history survives `clear()`, so undo after clear
is not a no-op and the buffer does not stay empty. -/
theorem c9_counterexample :
    (promptHi.clear.key_binding (mkKey 'u') none).editor.lines = [['h','i']]
  ∧ (promptHi.clear.key_binding (mkKey 'u') none).editor.lines ≠ [[]] := by
  decide

/-- C9 amended: `clear()` resets the buffer to a single empty line and
clears the formatted prompt, but retains the undo history: whenever the
buffer was not already the single empty line, the select-all-and-cut pushes
an undo checkpoint and an undo immediately after `clear()` restores the
previous buffer content. -/
theorem c9_amended (p : Prompt) :
    p.clear.editor.lines = [[]]
  ∧ p.clear.formatted_prompt = []
  ∧ (p.editor.lines ≠ [[]] → p.clear.editor.undo.lines = p.editor.lines) :=
  ⟨selectAll_cut_lines p.editor, rfl, fun hne => selectAll_cut_undo p.editor hne⟩

/-- C9 witness: the amended theorem applied to the "hi" fixture. -/
theorem c9_witness :
    promptHi.editor.lines ≠ [[]]
  ∧ promptHi.clear.editor.lines = [[]]
  ∧ promptHi.clear.editor.undo.lines = promptHi.editor.lines :=
  ⟨by decide, (c9_amended promptHi).1, (c9_amended promptHi).2.2 (by decide)⟩

end Tenere
